import Mathlib

/-!
Verification development for the FGF post-processing pipeline: a shallow
embedding of the G-code parser, the extrusion-path analyzer, the smoothing
curve library and the smoothing/rewriting engine, together with theorems
settling the specification claims.  Machine floats are modelled as real
numbers; decimal literals are evaluated exactly, and acceptance of a
numeric token is decided purely on its character structure.
-/

namespace FGF

/-! Parameter dictionaries: a G-code command's `params` is a mapping from a
single-letter key to a float.  We model it as an ordered association list
with Python-dict update semantics (overwrite in place, append when new). -/

abbrev Params := List (Char × ℝ)

def getParam (ps : Params) (k : Char) : Option ℝ :=
  (ps.find? (fun p => p.1 = k)).map (fun p => p.2)

def hasParam (ps : Params) (k : Char) : Bool :=
  (getParam ps k).isSome

def setParam : Params → Char → ℝ → Params
  | [], k, v => [(k, v)]
  | (k0, v0) :: rest, k, v =>
    if k0 = k then (k, v) :: rest else (k0, v0) :: setParam rest k v

/-! The command model, mirroring `GCodeCommand` in `gcode_parser.py`.
The Python `_modified` flag is called `modified` here. -/

structure GCodeCommand where
  line_number : ℕ
  raw_line : String
  command : Option String := none
  params : Params := []
  comment : Option String := none
  modified : Bool := false
deriving Inhabited

/-! Character helpers used by the parser. -/

def isSpaceChar (c : Char) : Bool :=
  c = ' ' || c = '\t' || c = '\n' || c = '\r' || c = '\x0b' || c = '\x0c'

def stripWs (l : List Char) : List Char :=
  ((l.dropWhile isSpaceChar).reverse.dropWhile isSpaceChar).reverse

def rstripNL (s : String) : String :=
  String.mk ((s.toList.reverse.dropWhile (fun c => c = '\n' || c = '\r')).reverse)

def breakAtSemicolon : List Char → List Char × Option (List Char)
  | [] => ([], none)
  | c :: rest =>
    if c = ';' then ([], some rest)
    else
      let r := breakAtSemicolon rest
      (c :: r.1, r.2)

def isUpperAZ (c : Char) : Bool := 'A' ≤ c && c ≤ 'Z'

/-! The numeric-token matcher, mirroring the regex
`([A-Z])(-?\.?\d+\.?\d*)` from `gcode_parser.py`: an optional sign, an
optional leading dot, at least one digit, an optional second dot and more
digits, matched greedily.  `matchNumberToken` returns the matched token
(a prefix of its input) or `none` when no token starts at the head. -/

def matchNumberToken (l : List Char) : Option (List Char) :=
  let sgnRest : List Char × List Char :=
    match l with
    | '-' :: t => (['-'], t)
    | _ => ([], l)
  let dotRest : List Char × List Char :=
    match sgnRest.2 with
    | '.' :: t => (['.'], t)
    | _ => ([], sgnRest.2)
  let digs := dotRest.2.takeWhile Char.isDigit
  if digs.isEmpty then none
  else
    let r3 := dotRest.2.drop digs.length
    let dot2Rest : List Char × List Char :=
      match r3 with
      | '.' :: t => (['.'], t)
      | _ => ([], r3)
    let digs2 := dot2Rest.2.takeWhile Char.isDigit
    some (sgnRest.1 ++ dotRest.1 ++ digs ++ dot2Rest.1 ++ digs2)

/-- Scan for `letter`+`number` tokens, exactly as `re.finditer` walks the
string: at each position either a whole match is consumed or the scan
advances one character.  The structural fuel argument bounds the number of
steps; every step strictly shrinks the list, so `l.length` fuel is always
enough. -/
def findParamsAux : ℕ → List Char → List (Char × List Char)
  | 0, _ => []
  | _ + 1, [] => []
  | fuel + 1, c :: rest =>
    if isUpperAZ c then
      match matchNumberToken rest with
      | some tok => (c, tok) :: findParamsAux fuel (rest.drop tok.length)
      | none => findParamsAux fuel rest
    else findParamsAux fuel rest

def findParams (l : List Char) : List (Char × List Char) :=
  findParamsAux l.length l

/-! Decimal evaluation of a matched numeric token, mirroring Python's
`float` on decimal literals: an optional sign, an integer part, an
optional dot and fractional part, with at least one digit and nothing
left over.  The value is assembled exactly in the reals; acceptance is
decided purely on the character structure.  Tokens such as `.5.7` (two
dots) make `float` raise a `ValueError`; here they yield `none`. -/

def digitsToNat (l : List Char) : ℕ :=
  l.foldl (fun a c => a * 10 + (c.toNat - '0'.toNat)) 0

noncomputable def strToFloat (l : List Char) : Option ℝ :=
  let sgnRest : Bool × List Char :=
    match l with
    | '-' :: t => (true, t)
    | '+' :: t => (false, t)
    | _ => (false, l)
  let intDigs := sgnRest.2.takeWhile Char.isDigit
  let r2 := sgnRest.2.drop intDigs.length
  let mag : Option ℝ :=
    match r2 with
    | [] => if intDigs.isEmpty then none else some (digitsToNat intDigs : ℝ)
    | '.' :: r3 =>
      let fracDigs := r3.takeWhile Char.isDigit
      let r4 := r3.drop fracDigs.length
      if ¬ r4.isEmpty then none
      else if intDigs.isEmpty && fracDigs.isEmpty then none
      else some ((digitsToNat intDigs : ℝ) + (digitsToNat fracDigs : ℝ) / 10 ^ fracDigs.length)
    | _ => none
  mag.map (fun m => if sgnRest.1 then -m else m)

/-- Convert the scanned raw tokens into a parameter dictionary, in order,
with dict-overwrite semantics.  A token `float` cannot evaluate aborts the
whole conversion, modelling the uncaught `ValueError` in `parse_line`. -/
noncomputable def convertParams : Params → List (Char × List Char) → Option Params
  | acc, [] => some acc
  | acc, (k, tok) :: rest =>
    match strToFloat tok with
    | some v => convertParams (setParam acc k v) rest
    | none => none

/-- The branch structure of `GCodeParser.parse_line` on the stripped line:
blank line, comment-only line, or opcode plus scanned parameters; the
result is the optional `(command, params, comment)` triple, `none` when a
matched numeric token makes `float` raise. -/
noncomputable def parseBody (line0 : List Char) : Option (Option String × Params × Option String) :=
  let line := stripWs line0
  if line.isEmpty then some (none, [], none)
  else
    let br := breakAtSemicolon line
    let codePart := stripWs br.1
    let comment : Option String := br.2.map (fun c => String.mk (stripWs c))
    if codePart.isEmpty then some (none, [], comment)
    else
      let tok := codePart.takeWhile (fun c => ¬ isSpaceChar c)
      if tok.isEmpty then some (none, [], comment)
      else
        match convertParams [] (findParams (stripWs (codePart.drop tok.length))) with
        | some ps => some (some (String.mk (tok.map Char.toUpper)), ps, comment)
        | none => none

/-- The parser, mirroring `GCodeParser.parse_line`.  The result is `none`
exactly when the Python code would raise (a matched numeric token that
`float` rejects); every other line yields a command with
`modified = false` and `raw_line` the input stripped of trailing newline
characters. -/
noncomputable def parse_line (s : String) (lineNumber : ℕ) : Option GCodeCommand :=
  (parseBody (rstripNL s).toList).map (fun b =>
    { line_number := lineNumber, raw_line := rstripNL s,
      command := b.1, params := b.2.1, comment := b.2.2 })

/-! Rendering a command back to text, mirroring `GCodeCommand.to_gcode`.
Fixed-point formatting of a real is modelled with `round`; it is only
exercised on rewritten commands. -/

def padZeros (s : String) (w : ℕ) : String :=
  String.mk (List.replicate (w - s.length) '0') ++ s

noncomputable def fmtFixed (digits : ℕ) (x : ℝ) : String :=
  let n : ℤ := round (x * 10 ^ digits)
  let a := n.natAbs
  let ip := a / 10 ^ digits
  let fp := a % 10 ^ digits
  let sign := if n < 0 then "-" else ""
  if digits = 0 then sign ++ toString ip
  else sign ++ toString ip ++ "." ++ padZeros (toString fp) digits

noncomputable def synthesize_text (c : GCodeCommand) : String :=
  match c.command with
  | none =>
    match c.comment with
    | some s => if s = "" then "" else ";" ++ s
    | none => ""
  | some cmdStr =>
    let stdOrder : List Char := ['X', 'Y', 'Z', 'E', 'F']
    let fmtFor : Char → ℝ → String := fun k v =>
      if k = 'E' then fmtFixed 5 v else if k = 'F' then fmtFixed 1 v else fmtFixed 3 v
    let stdParts := stdOrder.filterMap
      (fun k => (getParam c.params k).map (fun v => String.mk [k] ++ fmtFor k v))
    let otherParts := c.params.filterMap
      (fun p => if p.1 ∈ stdOrder then none else some (String.mk [p.1] ++ fmtFixed 1 p.2))
    let result := String.intercalate " " (cmdStr :: (stdParts ++ otherParts))
    match c.comment with
    | some s => if s = "" then result else result ++ " ;" ++ s
    | none => result

noncomputable def to_gcode (c : GCodeCommand) : String :=
  if c.modified then synthesize_text c else c.raw_line

/-! The path analyzer, mirroring `path_analyzer.py`. -/

structure Point where
  x : ℝ
  y : ℝ
  z : ℝ
  e : ℝ
deriving Inhabited

/-- Planar (XY) distance between two points, as `Point.distance_xy`. -/
noncomputable def distance_xy (p q : Point) : ℝ :=
  Real.sqrt ((q.x - p.x) * (q.x - p.x) + (q.y - p.y) * (q.y - p.y))

structure ExtrusionMove where
  command : GCodeCommand
  start_point : Point
  end_point : Point
  length : ℝ
  extrusion : ℝ
  feedrate : ℝ
deriving Inhabited

def ExtrusionMove.line_number (m : ExtrusionMove) : ℕ := m.command.line_number

structure ExtrusionPath where
  moves : List ExtrusionMove := []
  feature_type : String := "unknown"
  start_line : ℕ := 0
  end_line : ℕ := 0
deriving Inhabited

noncomputable def ExtrusionPath.total_length (p : ExtrusionPath) : ℝ :=
  (p.moves.map (fun m => m.length)).sum

noncomputable def ExtrusionPath.total_extrusion (p : ExtrusionPath) : ℝ :=
  (p.moves.map (fun m => m.extrusion)).sum

structure MachineState where
  x : ℝ := 0
  y : ℝ := 0
  z : ℝ := 0
  e : ℝ := 0
  f : ℝ := 1200
  relative_extrusion : Bool := false
  current_feature : String := "unknown"
deriving Inhabited

def initMachineState : MachineState := {}

/-- State transition of `MachineState.update_from_command`. -/
def update_from_command (st : MachineState) (cmd : GCodeCommand) : MachineState :=
  if cmd.command = some "G1" ∨ cmd.command = some "G0" then
    let st1 := match getParam cmd.params 'X' with
      | some v => { st with x := v } | none => st
    let st2 := match getParam cmd.params 'Y' with
      | some v => { st1 with y := v } | none => st1
    let st3 := match getParam cmd.params 'Z' with
      | some v => { st2 with z := v } | none => st2
    let st4 := match getParam cmd.params 'F' with
      | some v => { st3 with f := v } | none => st3
    match getParam cmd.params 'E' with
    | some v =>
      if st4.relative_extrusion then { st4 with e := st4.e + v } else { st4 with e := v }
    | none => st4
  else if cmd.command = some "G92" then
    let st1 := match getParam cmd.params 'E' with
      | some v => { st with e := v } | none => st
    let st2 := match getParam cmd.params 'X' with
      | some v => { st1 with x := v } | none => st1
    let st3 := match getParam cmd.params 'Y' with
      | some v => { st2 with y := v } | none => st2
    match getParam cmd.params 'Z' with
    | some v => { st3 with z := v } | none => st3
  else if cmd.command = some "M82" then { st with relative_extrusion := false }
  else if cmd.command = some "M83" then { st with relative_extrusion := true }
  else st

/-- Test of `PathAnalyzer._is_extrusion_move`: a `G1` with a planar axis,
an `E` parameter and a strictly positive net extrusion under the current
mode. -/
noncomputable def is_extrusion_move (st : MachineState) (cmd : GCodeCommand) : Bool :=
  if cmd.command = some "G1" then
    if hasParam cmd.params 'X' || hasParam cmd.params 'Y' then
      match getParam cmd.params 'E' with
      | some e =>
        if st.relative_extrusion then decide (e > 0) else decide (e > st.e)
      | none => false
    else false
  else false

/-- Construction of `PathAnalyzer._create_extrusion_move`. -/
noncomputable def create_extrusion_move (st : MachineState) (cmd : GCodeCommand) :
    ExtrusionMove :=
  let start_point : Point := ⟨st.x, st.y, st.z, st.e⟩
  let end_x := (getParam cmd.params 'X').getD st.x
  let end_y := (getParam cmd.params 'Y').getD st.y
  let end_z := (getParam cmd.params 'Z').getD st.z
  let e_param := (getParam cmd.params 'E').getD st.e
  let end_e := if st.relative_extrusion then st.e + e_param else e_param
  let extrusion := if st.relative_extrusion then e_param else e_param - st.e
  let end_point : Point := ⟨end_x, end_y, end_z, end_e⟩
  { command := cmd, start_point := start_point, end_point := end_point,
    length := distance_xy start_point end_point, extrusion := extrusion,
    feedrate := (getParam cmd.params 'F').getD st.f }

/-- Feature-type detection from a comment (`PathAnalyzer._detect_feature_type`):
a truthy comment whose upper-cased text contains `TYPE:` yields the text
after the last colon, stripped. -/
def detect_feature_type (cmd : GCodeCommand) : Option String :=
  match cmd.comment with
  | some c =>
    if !c.isEmpty && ((c.map Char.toUpper).splitOn "TYPE:").length > 1 then
      some ((c.splitOn ":").getLastD c).trim
    else none
  | none => none

def has_wipe_marker (cmd : GCodeCommand) : Bool :=
  match cmd.comment with
  | some c =>
    !c.isEmpty && (((c.splitOn "WIPE_START").length > 1) || ((c.splitOn "WIPE_END").length > 1))
  | none => false

/-- Loop state of `PathAnalyzer.analyze`: the machine state, the open path
accumulator and the emitted paths. -/
structure AnalyzerState where
  st : MachineState
  current : Option ExtrusionPath
  paths : List ExtrusionPath
deriving Inhabited

/-- Closing the open path as done at each boundary in `analyze`: it is
emitted only when present and non-empty (its `end_line` set to the last
move's line number), matching the `if current_path and current_path.moves`
guard. -/
def close_current_path (a : AnalyzerState) : AnalyzerState :=
  match a.current with
  | some p =>
    if p.moves.isEmpty then a
    else
      { a with
        paths := a.paths ++ [{ p with end_line := (p.moves.getLastD default).line_number }],
        current := none }
  | none => a

/-- One iteration of the `for cmd in commands` loop of
`PathAnalyzer.analyze`, with the branches in source order. -/
noncomputable def analyzeStep (a : AnalyzerState) (cmd : GCodeCommand) : AnalyzerState :=
  let a :=
    match detect_feature_type cmd with
    | some feature =>
      if feature = "" then a
      else { close_current_path a with st := { a.st with current_feature := feature } }
    | none => a
  if has_wipe_marker cmd then close_current_path a
  else if cmd.command = some "M82" ∨ cmd.command = some "M83" ∨ cmd.command = some "G92" then
    let a := close_current_path a
    { a with st := update_from_command a.st cmd }
  else if is_extrusion_move a.st cmd then
    let cur := a.current.getD
      { moves := [], feature_type := a.st.current_feature, start_line := cmd.line_number }
    let mv := create_extrusion_move a.st cmd
    { a with current := some { cur with moves := cur.moves ++ [mv] },
             st := update_from_command a.st cmd }
  else if cmd.command = some "G0" ∨ cmd.command = some "G1" then
    let a :=
      if hasParam cmd.params 'X' || hasParam cmd.params 'Y' || hasParam cmd.params 'Z' then
        close_current_path a
      else a
    { a with st := update_from_command a.st cmd }
  else { a with st := update_from_command a.st cmd }

/-- `PathAnalyzer.analyze`: fold the step over the command list from a
fresh machine state, then close any still-open path. -/
noncomputable def analyze (commands : List GCodeCommand) : List ExtrusionPath :=
  (close_current_path
    (commands.foldl analyzeStep ⟨initMachineState, none, []⟩)).paths

/-! The ramp-curve library, mirroring `smoothing.py`. -/

inductive CurveType where
  | LINEAR
  | EXPONENTIAL
  | LOGARITHMIC
  | SIGMOID
  | QUADRATIC
  | SCURVE
deriving DecidableEq, Inhabited

def CurveType.value : CurveType → String
  | .LINEAR => "linear"
  | .EXPONENTIAL => "exponential"
  | .LOGARITHMIC => "logarithmic"
  | .SIGMOID => "sigmoid"
  | .QUADRATIC => "quadratic"
  | .SCURVE => "scurve"

/-- `apply_curve`: clamp the progress to `[0, 1]`, then evaluate the
selected shaping curve (`math.e` is `Real.exp 1`). -/
noncomputable def apply_curve (progress : ℝ) (curve_type : CurveType) : ℝ :=
  let p := max 0 (min 1 progress)
  match curve_type with
  | .LINEAR => p
  | .EXPONENTIAL => (Real.exp (p * 2) - 1) / (Real.exp 2 - 1)
  | .LOGARITHMIC => Real.log (1 + p * (Real.exp 1 - 1))
  | .SIGMOID => 1 / (1 + Real.exp (-10 * (p - 0.5)))
  | .QUADRATIC => p * p
  | .SCURVE => if p < 0.5 then 2 * p * p else 1 - 2 * (1 - p) * (1 - p)

/-- `calculate_speed_factor`: ramp-up zone first, then ramp-down zone,
else full speed. -/
noncomputable def calculate_speed_factor (distance_from_start distance_to_end
    ramp_up_length ramp_down_length : ℝ) (ramp_up_curve ramp_down_curve : CurveType) : ℝ :=
  if distance_from_start < ramp_up_length then
    apply_curve (distance_from_start / ramp_up_length) ramp_up_curve
  else if distance_to_end < ramp_down_length then
    apply_curve (distance_to_end / ramp_down_length) ramp_down_curve
  else 1

/-- `calculate_effective_ramps`: keep the configured ramps when they fit
within `max_ramp_ratio` of the path, else scale both proportionally. -/
noncomputable def calculate_effective_ramps (path_length ramp_up_length ramp_down_length : ℝ)
    (max_ramp_ratio : ℝ := 0.8) : ℝ × ℝ :=
  let total_ramp := ramp_up_length + ramp_down_length
  let max_total_ramp := path_length * max_ramp_ratio
  if total_ramp ≤ max_total_ramp then (ramp_up_length, ramp_down_length)
  else
    let ratio := max_total_ramp / total_ramp
    (ramp_up_length * ratio, ramp_down_length * ratio)

/-! The processor, mirroring `processor.py`. -/

structure ProcessorConfig where
  ramp_up_length : ℝ := 5
  ramp_down_length : ℝ := 4
  ramp_up_curve : CurveType := .SIGMOID
  ramp_down_curve : CurveType := .EXPONENTIAL
  min_path_length : ℝ := 1
  min_speed_ratio : ℝ := 0.1
  segment_resolution : ℝ := 0.5
  target_features : Option (List String) := none
deriving Inhabited

/-- `GCodeProcessor._should_process_path`: length filter, then (when the
configured feature list is truthy) the feature filter. -/
noncomputable def should_process_path (cfg : ProcessorConfig) (p : ExtrusionPath) : Bool :=
  if decide (p.total_length < cfg.min_path_length) then false
  else
    match cfg.target_features with
    | some ts => if ts.isEmpty then true else decide (p.feature_type ∈ ts)
    | none => true

/-- The sub-segment count used in `_apply_smoothing_to_path`:
`max(2, int(move.length / resolution))`; Python's `int` truncates, which
on the nonnegative ratios occurring here is the floor. -/
noncomputable def num_segments (length resolution : ℝ) : ℕ :=
  max 2 (⌊length / resolution⌋).toNat

/-- `GCodeProcessor._generate_segment_command`: a synthesized `G1` with
the segment's end coordinates, per-segment extrusion, scaled feed, and a
phase/percentage comment.  The params dict is populated in source order
(`X`, `Y`, `E`, `F`, then `Z` when the original move carried `Z`). -/
noncomputable def generate_segment_command (end_x end_y end_z end_e feed : ℝ)
    (phase : String) (speed_factor : ℝ) (has_z : Bool) : GCodeCommand :=
  { line_number := 0, raw_line := "",
    command := some "G1",
    params := [('X', end_x), ('Y', end_y), ('E', end_e), ('F', feed)] ++
      (if has_z then [('Z', end_z)] else []),
    comment := some (phase ++ " " ++ fmtFixed 0 (speed_factor * 100) ++ "%"),
    modified := true }

/-- Comment decoration of the non-subdivided branch:
`f"{orig} ; {phase}" if original_comment else phase`. -/
def tag_comment (original : Option String) (phase : String) : String :=
  match original with
  | some s => if s = "" then phase else s ++ " ; " ++ phase
  | none => phase

/-- The body of the `for move in path.moves` loop of
`GCodeProcessor._apply_smoothing_to_path`, for one move starting at
cumulative distance `c`: either subdivide into equal sub-segments with the
extrusion delta split evenly, or rewrite only the feed. -/
noncomputable def renderMove (cfg : ProcessorConfig) (total eff_ramp_up eff_ramp_down : ℝ)
    (c : ℝ) (m : ExtrusionMove) : List GCodeCommand :=
  let move_start_dist := c
  let move_end_dist := c + m.length
  let sx := m.start_point.x
  let sy := m.start_point.y
  let sz := m.start_point.z
  let ex := m.end_point.x
  let ey := m.end_point.y
  let ez := m.end_point.z
  let has_z := hasParam m.command.params 'Z'
  let in_ramp_up : Bool := decide (move_start_dist < eff_ramp_up)
  let in_ramp_down : Bool := decide (move_end_dist > total - eff_ramp_down)
  if (in_ramp_up || in_ramp_down) && decide (m.length > cfg.segment_resolution) then
    let n := num_segments m.length cfg.segment_resolution
    let e_per_segment := m.extrusion / n
    (List.range n).map (fun (seg_idx : ℕ) =>
      let t0 : ℝ := (seg_idx : ℝ) / (n : ℝ)
      let t1 : ℝ := ((seg_idx : ℝ) + 1) / (n : ℝ)
      let t_mid := (t0 + t1) / 2
      let seg_dist := move_start_dist + m.length * t_mid
      let seg_dist_to_end := total - seg_dist
      let speed_factor := max
        (calculate_speed_factor seg_dist seg_dist_to_end eff_ramp_up eff_ramp_down
          cfg.ramp_up_curve cfg.ramp_down_curve)
        cfg.min_speed_ratio
      let phase := if seg_dist < eff_ramp_up then "RAMP_UP"
        else if seg_dist_to_end < eff_ramp_down then "RAMP_DOWN"
        else "STEADY"
      generate_segment_command (sx + (ex - sx) * t1) (sy + (ey - sy) * t1)
        (sz + (ez - sz) * t1) e_per_segment (m.feedrate * speed_factor)
        phase speed_factor has_z)
  else
    let dist_mid := move_start_dist + m.length / 2
    let dist_to_end := total - dist_mid
    let speed_factor := max
      (calculate_speed_factor dist_mid dist_to_end eff_ramp_up eff_ramp_down
        cfg.ramp_up_curve cfg.ramp_down_curve)
      cfg.min_speed_ratio
    let phase := if dist_mid < eff_ramp_up then
        "RAMP_UP " ++ fmtFixed 0 (speed_factor * 100) ++ "%"
      else if dist_to_end < eff_ramp_down then
        "RAMP_DOWN " ++ fmtFixed 0 (speed_factor * 100) ++ "%"
      else "STEADY"
    [{ line_number := m.command.line_number, raw_line := m.command.raw_line,
       command := some "G1",
       params := setParam m.command.params 'F' (m.feedrate * speed_factor),
       comment := some (tag_comment m.command.comment phase),
       modified := true }]

/-- The move loop of `_apply_smoothing_to_path`, threading the cumulative
planar distance. -/
noncomputable def renderMoves (cfg : ProcessorConfig) (total eff_ramp_up eff_ramp_down : ℝ) :
    ℝ → List ExtrusionMove → List GCodeCommand
  | _, [] => []
  | c, m :: rest =>
    renderMove cfg total eff_ramp_up eff_ramp_down c m ++
      renderMoves cfg total eff_ramp_up eff_ramp_down (c + m.length) rest

/-- `GCodeProcessor._apply_smoothing_to_path`: the two opening annotation
records, the rendered moves, and the closing annotation record. -/
noncomputable def renderPath (cfg : ProcessorConfig) (path : ExtrusionPath) :
    List GCodeCommand :=
  let er := calculate_effective_ramps path.total_length cfg.ramp_up_length cfg.ramp_down_length
  let startCmt : GCodeCommand :=
    { line_number := 0, raw_line := "",
      comment := some ("PRESSURE_SMOOTHING_START: " ++ path.feature_type ++
        ", length=" ++ fmtFixed 2 path.total_length ++ "mm"),
      modified := true }
  let rampCmt : GCodeCommand :=
    { line_number := 0, raw_line := "",
      comment := some ("Ramps: up=" ++ fmtFixed 2 er.1 ++ "mm (" ++ cfg.ramp_up_curve.value ++
        "), down=" ++ fmtFixed 2 er.2 ++ "mm (" ++ cfg.ramp_down_curve.value ++ ")"),
      modified := true }
  let endCmt : GCodeCommand :=
    { line_number := 0, raw_line := "", comment := some "PRESSURE_SMOOTHING_END",
      modified := true }
  startCmt :: rampCmt ::
    (renderMoves cfg path.total_length er.1 er.2 0 path.moves ++ [endCmt])

/-- Dict update on the line-number-to-path mapping of `process_file`. -/
def insertLine : List (ℕ × ExtrusionPath) → ℕ → ExtrusionPath → List (ℕ × ExtrusionPath)
  | [], k, p => [(k, p)]
  | (k0, p0) :: rest, k, p =>
    if k0 = k then (k, p) :: rest else (k0, p0) :: insertLine rest k p

def lookupLine (l : List (ℕ × ExtrusionPath)) (k : ℕ) : Option ExtrusionPath :=
  (l.find? (fun q => q.1 = k)).map (fun q => q.2)

/-- The line-to-path lookup of `process_file` step 3: qualifying paths
register each of their moves' line numbers. -/
noncomputable def build_line_to_path (cfg : ProcessorConfig) (paths : List ExtrusionPath) :
    List (ℕ × ExtrusionPath) :=
  paths.foldl
    (fun acc p =>
      if should_process_path cfg p then
        p.moves.foldl (fun acc2 mv => insertLine acc2 mv.line_number p) acc
      else acc)
    []

/-- The output pass of `process_file` step 4: a command on a qualifying
path triggers rendering of the whole path on first encounter (keyed by the
path's `start_line`) and is skipped afterwards; any other command is
copied through. -/
noncomputable def processAux (cfg : ProcessorConfig) (ltp : List (ℕ × ExtrusionPath)) :
    List ℕ → List GCodeCommand → List GCodeCommand
  | _, [] => []
  | done, cmd :: rest =>
    match lookupLine ltp cmd.line_number with
    | some p =>
      if p.start_line ∈ done then processAux cfg ltp done rest
      else renderPath cfg p ++ processAux cfg ltp (done ++ [p.start_line]) rest
    | none => cmd :: processAux cfg ltp done rest

/-- `GCodeProcessor.process_file` restricted to its in-memory content:
analyze the commands, build the qualifying-path lookup, and produce the
output command list. -/
noncomputable def process_commands (cfg : ProcessorConfig) (commands : List GCodeCommand) :
    List GCodeCommand :=
  processAux cfg (build_line_to_path cfg (analyze commands)) [] commands

/-- Sum of the `E` parameters carried by the executable (`G1`) commands of
a rendered list: the claim's measurement of emitted extrusion. -/
noncomputable def sumEmittedE (cmds : List GCodeCommand) : ℝ :=
  (cmds.map (fun c =>
    if c.command = some "G1" then (getParam c.params 'E').getD 0 else 0)).sum

/-! Concrete fixtures used by the witnesses and counterexamples below. -/

/-- The command produced by parsing the plain line `G1 X1`. -/
noncomputable def parsedG1X1 : GCodeCommand := (parse_line "G1 X1" 7).getD default

/-- A one-millimetre straight extruding move along X at feed 600. -/
noncomputable def mvW : ExtrusionMove :=
  { command := { line_number := 9, raw_line := "G1 X1 E1 F600", command := some "G1",
                 params := [('X', 1), ('E', 1), ('F', 600)] },
    start_point := ⟨0, 0, 0, 0⟩, end_point := ⟨1, 0, 0, 1⟩,
    length := 1, extrusion := 1, feedrate := 600 }

noncomputable def pathW : ExtrusionPath :=
  { moves := [mvW], feature_type := "wall", start_line := 9, end_line := 9 }

noncomputable def procCfgDefault : ProcessorConfig := {}

noncomputable def cfgMsrOne : ProcessorConfig := { min_speed_ratio := 1 }

noncomputable def cfgHalfRes : ProcessorConfig := { segment_resolution := 1 / 2 }

noncomputable def cfgZeroRamps : ProcessorConfig :=
  { ramp_up_length := 0, ramp_down_length := 0, min_speed_ratio := 1 }

/-- An absolute-mode extruding command: the machine sits at `e = 1` and the
command moves to `X0.3` with absolute `E1.3`, a net delta of `0.3`. -/
noncomputable def cmdAbsE : GCodeCommand :=
  { line_number := 5, raw_line := "G1 X0.3 E1.3", command := some "G1",
    params := [('X', 0.3), ('E', 1.3)] }

noncomputable def stAbs : MachineState := { e := 1 }

noncomputable def mvAbs : ExtrusionMove := create_extrusion_move stAbs cmdAbsE

noncomputable def pathAbs : ExtrusionPath :=
  { moves := [mvAbs], feature_type := "unknown", start_line := 5, end_line := 5 }

/-- A 1.35 mm straight extruding move: `1.35 / 0.5 = 2.7`, where rounding
and truncation disagree. -/
noncomputable def mvLong : ExtrusionMove :=
  { command := { line_number := 11, raw_line := "G1 X1.35 E2", command := some "G1",
                 params := [('X', 1.35), ('E', 2)] },
    start_point := ⟨0, 0, 0, 0⟩, end_point := ⟨1.35, 0, 0, 2⟩,
    length := 1.35, extrusion := 2, feedrate := 1200 }

/-- An analyzer state with an open, non-empty path. -/
noncomputable def aStateOpen : AnalyzerState := ⟨initMachineState, some pathW, []⟩

/-- A move command supplying only a Z coordinate: no planar axis. -/
noncomputable def cmdZOnly : GCodeCommand :=
  { line_number := 2, raw_line := "G1 Z5", command := some "G1", params := [('Z', 5)] }

/-- A heater command: not a move, belongs to no path. -/
noncomputable def cmdM104 : GCodeCommand :=
  { line_number := 1, raw_line := "M104 S200", command := some "M104",
    params := [('S', 200)] }

/-- The endpoint of the `j`-th interpolation node when a move is split into
`n` sub-segments (the code's `s + (e - s) * t` with `t = j / n`). -/
noncomputable def subPoint (m : ExtrusionMove) (n : ℕ) (j : ℕ) : Point :=
  ⟨m.start_point.x + (m.end_point.x - m.start_point.x) * ((j : ℝ) / (n : ℝ)),
   m.start_point.y + (m.end_point.y - m.start_point.y) * ((j : ℝ) / (n : ℝ)), 0, 0⟩

/-! End of the definitions; the claim theorems follow. -/

/-! Association-list lemmas about parameter dictionaries. -/

theorem getParam_nil (k : Char) : getParam [] k = none := rfl

theorem getParam_cons (k0 : Char) (v0 : ℝ) (l : Params) (k : Char) :
    getParam ((k0, v0) :: l) k = if k0 = k then some v0 else getParam l k := by
  by_cases h : k0 = k <;> simp [getParam, List.find?, h]

theorem getParam_setParam_self (ps : Params) (k : Char) (v : ℝ) :
    getParam (setParam ps k v) k = some v := by
  induction ps with
  | nil => simp [setParam, getParam_cons]
  | cons a rest ih =>
    obtain ⟨k0, v0⟩ := a
    by_cases h : k0 = k
    · simp [setParam, h, getParam_cons]
    · simp [setParam, h, getParam_cons, ih]

theorem getParam_setParam_ne (ps : Params) (k k' : Char) (v : ℝ) (h : k ≠ k') :
    getParam (setParam ps k v) k' = getParam ps k' := by
  induction ps with
  | nil => simp [setParam, getParam_cons, getParam_nil, h]
  | cons a rest ih =>
    obtain ⟨k0, v0⟩ := a
    by_cases h0 : k0 = k
    · subst h0
      simp [setParam, getParam_cons, h]
    · simp [setParam, h0, getParam_cons, ih]

/-- C2: for a path of length `L` and configured ramps `up`, `down` with
`up + down > 0`, `calculate_effective_ramps` keeps the ramps unchanged
when `up + down ≤ 0.8·L`, and otherwise scales both by
`(0.8·L)/(up+down)`, so that the resolved ramps sum to exactly `0.8·L`
and preserve the ratio `up : down`. -/
theorem effective_ramps_spec (L up down : ℝ) (h : 0 < up + down) :
    (up + down ≤ L * 0.8 →
      calculate_effective_ramps L up down = (up, down)) ∧
    (L * 0.8 < up + down →
      (calculate_effective_ramps L up down).1 +
          (calculate_effective_ramps L up down).2 = L * 0.8 ∧
        (calculate_effective_ramps L up down).1 * down =
          (calculate_effective_ramps L up down).2 * up ∧
        (calculate_effective_ramps L up down).1 = up * ((L * 0.8) / (up + down)) ∧
        (calculate_effective_ramps L up down).2 = down * ((L * 0.8) / (up + down))) := by
  have hne : up + down ≠ 0 := ne_of_gt h
  constructor
  · intro hle
    simp [calculate_effective_ramps, hle]
  · intro hlt
    have hnle : ¬ (up + down ≤ L * 0.8) := not_le.mpr hlt
    have hval : calculate_effective_ramps L up down =
        (up * ((L * 0.8) / (up + down)), down * ((L * 0.8) / (up + down))) := by
      simp [calculate_effective_ramps, hnle]
    rw [hval]
    refine ⟨?_, ?_, rfl, rfl⟩
    · field_simp
      ring
    · ring

/-- Witness for C2 on a 10 mm path with configured ramps 1 and 0. -/
theorem effective_ramps_spec_witness :
    0 < (1 : ℝ) + 0 ∧
    (((1 : ℝ) + 0 ≤ 10 * 0.8 →
      calculate_effective_ramps 10 1 0 = (1, 0)) ∧
    ((10 : ℝ) * 0.8 < 1 + 0 →
      (calculate_effective_ramps 10 1 0).1 +
          (calculate_effective_ramps 10 1 0).2 = 10 * 0.8 ∧
        (calculate_effective_ramps 10 1 0).1 * 0 =
          (calculate_effective_ramps 10 1 0).2 * 1 ∧
        (calculate_effective_ramps 10 1 0).1 = 1 * ((10 * 0.8) / (1 + 0)) ∧
        (calculate_effective_ramps 10 1 0).2 = 0 * ((10 * 0.8) / (1 + 0)))) :=
  ⟨by simp, effective_ramps_spec 10 1 0 (by simp)⟩

/-- C7: on the line `G1 X.5.7` the scanner matches the numeric token
`.5.7`, which `float` cannot evaluate, and `parse_line` fails (Python
raises an uncaught `ValueError`; in the embedding the result is `none`).
The claim that the parser never fails on a single line is contradicted by
the code. -/
theorem parse_line_fails_on_double_dot : parse_line "G1 X.5.7" 1 = none := by
  rfl

/-- C6 (amended): whenever `parse_line` produces a command, that command
has `modified = false`, stores the input line stripped of trailing newline
characters as `raw_line`, and `to_gcode` reproduces exactly that stripped
text. -/
theorem parse_roundtrip_verbatim (s : String) (n : ℕ) (c : GCodeCommand)
    (h : parse_line s n = some c) :
    c.modified = false ∧ c.raw_line = rstripNL s ∧ to_gcode c = rstripNL s := by
  have hm : c.modified = false ∧ c.raw_line = rstripNL s := by
    unfold parse_line at h
    cases hb : parseBody (rstripNL s).toList with
    | none =>
      rw [hb] at h
      exact absurd h (by simp)
    | some b =>
      rw [hb] at h
      simp only [Option.map_some', Option.some.injEq] at h
      subst h
      exact ⟨rfl, rfl⟩
  refine ⟨hm.1, hm.2, ?_⟩
  rw [to_gcode, hm.1]
  simpa using hm.2

/-- C6 counterexample: the round trip is not the identity on a line that
still carries its newline terminator: parsing `"G1\n"` and rendering
yields `"G1"`. -/
theorem roundtrip_newline_counterexample :
    (parse_line "G1\n" 1).map to_gcode = some "G1" ∧ "G1" ≠ "G1\n" := by
  exact ⟨rfl, by decide⟩

/-- Witness for C6 on the line `G1 X1`. -/
theorem parse_roundtrip_verbatim_witness :
    parse_line "G1 X1" 7 = some parsedG1X1 ∧
      parsedG1X1.modified = false ∧ parsedG1X1.raw_line = rstripNL "G1 X1" ∧
      to_gcode parsedG1X1 = rstripNL "G1 X1" :=
  ⟨rfl, parse_roundtrip_verbatim "G1 X1" 7 parsedG1X1 rfl⟩

/-! Bounds on the ramp-curve library: every curve maps the clamped progress
into `[0, 1]`. -/

theorem apply_curve_nonneg (p : ℝ) (k : CurveType) : 0 ≤ apply_curve p k := by
  have hq0 : (0 : ℝ) ≤ max 0 (min 1 p) := le_max_left 0 (min 1 p)
  have hq1 : max 0 (min 1 p) ≤ 1 := max_le zero_le_one (min_le_left 1 p)
  set q := max 0 (min 1 p) with hq
  cases k <;> simp only [apply_curve, ← hq]
  case LINEAR => exact hq0
  case EXPONENTIAL =>
    apply div_nonneg
    · have h1 : Real.exp 0 ≤ Real.exp (q * 2) := Real.exp_le_exp.mpr (by nlinarith)
      rw [Real.exp_zero] at h1
      linarith
    · have h2 : Real.exp 0 < Real.exp 2 := Real.exp_lt_exp.mpr (by norm_num)
      rw [Real.exp_zero] at h2
      linarith
  case LOGARITHMIC =>
    apply Real.log_nonneg
    have he : (1 : ℝ) ≤ Real.exp 1 := by
      have := Real.add_one_le_exp (1 : ℝ)
      linarith
    nlinarith
  case SIGMOID =>
    have hd : (0 : ℝ) < 1 + Real.exp (-10 * (q - 0.5)) := by
      have := Real.exp_pos (-10 * (q - 0.5))
      linarith
    positivity
  case QUADRATIC => exact mul_nonneg hq0 hq0
  case SCURVE =>
    split
    · nlinarith
    · nlinarith

theorem apply_curve_le_one (p : ℝ) (k : CurveType) : apply_curve p k ≤ 1 := by
  have hq0 : (0 : ℝ) ≤ max 0 (min 1 p) := le_max_left 0 (min 1 p)
  have hq1 : max 0 (min 1 p) ≤ 1 := max_le zero_le_one (min_le_left 1 p)
  set q := max 0 (min 1 p) with hq
  cases k <;> simp only [apply_curve, ← hq]
  case LINEAR => exact hq1
  case EXPONENTIAL =>
    have hlt : Real.exp 0 < Real.exp 2 := Real.exp_lt_exp.mpr (by norm_num)
    rw [Real.exp_zero] at hlt
    rw [div_le_one (by linarith)]
    have h1 : Real.exp (q * 2) ≤ Real.exp 2 := Real.exp_le_exp.mpr (by nlinarith)
    linarith
  case LOGARITHMIC =>
    have he : (1 : ℝ) ≤ Real.exp 1 := by
      have := Real.add_one_le_exp (1 : ℝ)
      linarith
    have harg : 1 + q * (Real.exp 1 - 1) ≤ Real.exp 1 := by nlinarith
    have hpos : (0 : ℝ) < 1 + q * (Real.exp 1 - 1) := by nlinarith
    calc Real.log (1 + q * (Real.exp 1 - 1)) ≤ Real.log (Real.exp 1) :=
          Real.log_le_log hpos harg
      _ = 1 := Real.log_exp 1
  case SIGMOID =>
    have hd : (0 : ℝ) < 1 + Real.exp (-10 * (q - 0.5)) := by
      have := Real.exp_pos (-10 * (q - 0.5))
      linarith
    rw [div_le_one hd]
    have := Real.exp_pos (-10 * (q - 0.5))
    linarith
  case QUADRATIC => nlinarith
  case SCURVE =>
    split
    · nlinarith
    · nlinarith

theorem calculate_speed_factor_nonneg (dfs dte ru rd : ℝ) (cu cd : CurveType) :
    0 ≤ calculate_speed_factor dfs dte ru rd cu cd := by
  unfold calculate_speed_factor
  split
  · exact apply_curve_nonneg _ _
  · split
    · exact apply_curve_nonneg _ _
    · exact zero_le_one

theorem calculate_speed_factor_le_one (dfs dte ru rd : ℝ) (cu cd : CurveType) :
    calculate_speed_factor dfs dte ru rd cu cd ≤ 1 := by
  unfold calculate_speed_factor
  split
  · exact apply_curve_le_one _ _
  · split
    · exact apply_curve_le_one _ _
    · exact le_refl 1

/-! Parameter lookups on the synthesized segment commands. -/

theorem getParam_segment_X (a b e f : ℝ) (tail : Params) :
    getParam (('X', a) :: ('Y', b) :: ('E', e) :: ('F', f) :: tail) 'X' = some a := rfl

theorem getParam_segment_Y (a b e f : ℝ) (tail : Params) :
    getParam (('X', a) :: ('Y', b) :: ('E', e) :: ('F', f) :: tail) 'Y' = some b := rfl

theorem getParam_segment_E (a b e f : ℝ) (tail : Params) :
    getParam (('X', a) :: ('Y', b) :: ('E', e) :: ('F', f) :: tail) 'E' = some e := rfl

theorem getParam_segment_F (a b e f : ℝ) (tail : Params) :
    getParam (('X', a) :: ('Y', b) :: ('E', e) :: ('F', f) :: tail) 'F' = some f := rfl

/-- Every command emitted by the per-move renderer is an executable `G1`
whose feed parameter is the move's feedrate multiplied by a floored speed
factor evaluated at some position. -/
theorem renderMove_mem_feed (cfg : ProcessorConfig) (total eu ed c : ℝ)
    (m : ExtrusionMove) (cmd : GCodeCommand)
    (hc : cmd ∈ renderMove cfg total eu ed c m) :
    cmd.command = some "G1" ∧
    ∃ d1 d2, getParam cmd.params 'F' =
      some (m.feedrate *
        max (calculate_speed_factor d1 d2 eu ed cfg.ramp_up_curve cfg.ramp_down_curve)
          cfg.min_speed_ratio) := by
  simp only [renderMove] at hc
  split at hc
  · rcases List.mem_map.mp hc with ⟨i, _, rfl⟩
    exact ⟨rfl, _, _, getParam_segment_F _ _ _ _ _⟩
  · rcases List.mem_singleton.mp hc with rfl
    exact ⟨rfl, _, _, getParam_setParam_self _ _ _⟩

/-- Lift of `renderMove_mem_feed` along the move loop. -/
theorem renderMoves_mem_feed (cfg : ProcessorConfig) (total eu ed : ℝ)
    (ms : List ExtrusionMove) (c : ℝ) (cmd : GCodeCommand)
    (hc : cmd ∈ renderMoves cfg total eu ed c ms) :
    ∃ mv ∈ ms, cmd.command = some "G1" ∧
      ∃ d1 d2, getParam cmd.params 'F' =
        some (mv.feedrate *
          max (calculate_speed_factor d1 d2 eu ed cfg.ramp_up_curve cfg.ramp_down_curve)
            cfg.min_speed_ratio) := by
  induction ms generalizing c with
  | nil => simp [renderMoves] at hc
  | cons m rest ih =>
    simp only [renderMoves] at hc
    rcases List.mem_append.mp hc with h | h
    · exact ⟨m, List.mem_cons_self m rest, renderMove_mem_feed cfg total eu ed c m cmd h⟩
    · rcases ih _ h with ⟨mv, hmv, hres⟩
      exact ⟨mv, List.mem_cons_of_mem m hmv, hres⟩

/-- C3: assuming `0 < min_speed_ratio ≤ 1`, every executable command
emitted for a processed path carries a feed equal to the original move's
feedrate times a factor lying in `[min_speed_ratio, 1]`, for every curve
kind and every position. -/
theorem emitted_feed_factor_bounded (cfg : ProcessorConfig) (path : ExtrusionPath)
    (h0 : 0 < cfg.min_speed_ratio) (h1 : cfg.min_speed_ratio ≤ 1) :
    ∀ cmd ∈ renderPath cfg path, cmd.command = some "G1" →
      ∃ mv ∈ path.moves, ∃ t, cfg.min_speed_ratio ≤ t ∧ t ≤ 1 ∧
        getParam cmd.params 'F' = some (mv.feedrate * t) := by
  intro cmd hc hG1
  simp only [renderPath, List.mem_cons, List.mem_append, List.mem_singleton,
    List.not_mem_nil, or_false] at hc
  rcases hc with rfl | rfl | hc | rfl
  · exact absurd hG1 (by simp)
  · exact absurd hG1 (by simp)
  · rcases renderMoves_mem_feed cfg _ _ _ _ _ _ hc with ⟨mv, hmv, _, d1, d2, hF⟩
    refine ⟨mv, hmv, _, le_max_right _ _, ?_, hF⟩
    exact max_le (calculate_speed_factor_le_one _ _ _ _ _ _) h1
  · exact absurd hG1 (by simp)

/-- Witness for C3 on a concrete one-move path and a configuration with
`min_speed_ratio = 1`. -/
theorem emitted_feed_factor_bounded_witness :
    0 < cfgMsrOne.min_speed_ratio ∧ cfgMsrOne.min_speed_ratio ≤ 1 ∧
    (∀ cmd ∈ renderPath cfgMsrOne pathW, cmd.command = some "G1" →
      ∃ mv ∈ pathW.moves, ∃ t, cfgMsrOne.min_speed_ratio ≤ t ∧ t ≤ 1 ∧
        getParam cmd.params 'F' = some (mv.feedrate * t)) :=
  ⟨zero_lt_one, le_refl 1,
    emitted_feed_factor_bounded cfgMsrOne pathW zero_lt_one (le_refl 1)⟩

/-! Zero-ramp behaviour of the smoothing engine. -/

theorem calculate_effective_ramps_zero (L : ℝ) :
    calculate_effective_ramps L 0 0 = (0, 0) := by
  simp only [calculate_effective_ramps]
  split <;> simp

/-- With both effective ramps zero, a move whose span `[c, c + length]`
lies inside `[0, total]` is not subdivided, gets speed factor `1` (so its
feed is unchanged) and is tagged `STEADY`. -/
theorem renderMove_zero_ramps (cfg : ProcessorConfig) (total c : ℝ) (m : ExtrusionMove)
    (hmsr : cfg.min_speed_ratio ≤ 1) (hc : 0 ≤ c) (h0 : 0 ≤ m.length)
    (hend : c + m.length ≤ total) :
    renderMove cfg total 0 0 c m =
      [{ line_number := m.command.line_number, raw_line := m.command.raw_line,
         command := some "G1",
         params := setParam m.command.params 'F' m.feedrate,
         comment := some (tag_comment m.command.comment "STEADY"),
         modified := true }] := by
  have h1 : decide (c < (0 : ℝ)) = false := decide_eq_false (not_lt.mpr hc)
  have h2 : decide (c + m.length > total - 0) = false := by
    apply decide_eq_false
    rw [sub_zero]
    exact not_lt.mpr hend
  have hmid1 : ¬ (c + m.length / 2 < (0 : ℝ)) := by
    push_neg
    linarith
  have hmid2 : ¬ (total - (c + m.length / 2) < (0 : ℝ)) := by
    push_neg
    linarith
  have hsf : calculate_speed_factor (c + m.length / 2) (total - (c + m.length / 2)) 0 0
      cfg.ramp_up_curve cfg.ramp_down_curve = 1 := by
    unfold calculate_speed_factor
    rw [if_neg hmid1, if_neg hmid2]
  simp only [renderMove, h1, h2, Bool.or_self, Bool.false_and, Bool.false_eq_true,
    if_false, hsf, max_eq_left hmsr, mul_one, if_neg hmid1, if_neg hmid2]

/-- Lift of `renderMove_zero_ramps` along the move loop. -/
theorem renderMoves_zero_ramps (cfg : ProcessorConfig) (total : ℝ)
    (hmsr : cfg.min_speed_ratio ≤ 1) :
    ∀ (ms : List ExtrusionMove) (c : ℝ), 0 ≤ c →
      (∀ m ∈ ms, 0 ≤ m.length) →
      c + (ms.map (fun m => m.length)).sum ≤ total →
      (renderMoves cfg total 0 0 c ms).length = ms.length ∧
      ∀ cmd ∈ renderMoves cfg total 0 0 c ms,
        ∃ mv ∈ ms, cmd.command = some "G1" ∧
          getParam cmd.params 'F' = some mv.feedrate ∧
          cmd.comment = some (tag_comment mv.command.comment "STEADY") := by
  intro ms
  induction ms with
  | nil =>
    intro c _ _ _
    constructor
    · rfl
    · intro cmd hc
      simp [renderMoves] at hc
  | cons m rest ih =>
    intro c hc hlen hsum
    have hrest_nonneg : 0 ≤ (rest.map (fun m => m.length)).sum := by
      apply List.sum_nonneg
      intro x hx
      rcases List.mem_map.mp hx with ⟨mv, hmv, rfl⟩
      exact hlen mv (List.mem_cons_of_mem m hmv)
    have hm0 : 0 ≤ m.length := hlen m (List.mem_cons_self m rest)
    have hsum' : c + m.length + (rest.map (fun m => m.length)).sum ≤ total := by
      simp only [List.map_cons, List.sum_cons] at hsum
      linarith
    have hone : renderMove cfg total 0 0 c m = _ :=
      renderMove_zero_ramps cfg total c m hmsr hc hm0 (by linarith)
    obtain ⟨ihl, ihm⟩ := ih (c + m.length) (by linarith)
      (fun mv hmv => hlen mv (List.mem_cons_of_mem m hmv)) hsum'
    constructor
    · simp only [renderMoves, List.length_append, hone, ihl, List.length_singleton,
        List.length_cons, List.length_nil]
      omega
    · intro cmd hcm
      simp only [renderMoves, List.mem_append] at hcm
      rcases hcm with h | h
      · rw [hone] at h
        rcases List.mem_singleton.mp h with rfl
        exact ⟨m, List.mem_cons_self m rest, rfl, getParam_setParam_self _ _ _, rfl⟩
      · rcases ihm cmd h with ⟨mv, hmv, hres⟩
        exact ⟨mv, List.mem_cons_of_mem m hmv, hres⟩

/-- C8: with configured ramp lengths zero the engine is total and inert:
both zone tests are vacuous, no move is subdivided (the output has exactly
one executable command per move, plus the three annotation records), and
every emitted command keeps its move's feedrate and is tagged `STEADY`. -/
theorem zero_ramps_all_steady (cfg : ProcessorConfig) (path : ExtrusionPath)
    (hup : cfg.ramp_up_length = 0) (hdown : cfg.ramp_down_length = 0)
    (hmsr : cfg.min_speed_ratio ≤ 1)
    (hlen : ∀ m ∈ path.moves, 0 ≤ m.length) :
    (renderPath cfg path).length = path.moves.length + 3 ∧
    ∀ cmd ∈ renderPath cfg path, cmd.command = some "G1" →
      ∃ mv ∈ path.moves, getParam cmd.params 'F' = some mv.feedrate ∧
        cmd.comment = some (tag_comment mv.command.comment "STEADY") := by
  have her : calculate_effective_ramps path.total_length cfg.ramp_up_length
      cfg.ramp_down_length = (0, 0) := by
    rw [hup, hdown]
    exact calculate_effective_ramps_zero _
  have hsum : (0 : ℝ) + (path.moves.map (fun m => m.length)).sum ≤ path.total_length := by
    rw [zero_add]
    exact le_of_eq rfl
  obtain ⟨hl, hmem⟩ := renderMoves_zero_ramps cfg path.total_length hmsr path.moves 0
    le_rfl hlen hsum
  constructor
  · simp only [renderPath, her, List.length_cons, List.length_append, hl,
      List.length_singleton, List.length_nil]
  · intro cmd hc hG1
    simp only [renderPath, her, List.mem_cons, List.mem_append, List.mem_singleton,
      List.not_mem_nil, or_false] at hc
    rcases hc with rfl | rfl | hc | rfl
    · exact absurd hG1 (by simp)
    · exact absurd hG1 (by simp)
    · rcases hmem cmd hc with ⟨mv, hmv, _, hF, hcm⟩
      exact ⟨mv, hmv, hF, hcm⟩
    · exact absurd hG1 (by simp)

/-- Witness for C8 on a concrete one-move path and a zero-ramp
configuration. -/
theorem zero_ramps_all_steady_witness :
    cfgZeroRamps.ramp_up_length = 0 ∧ cfgZeroRamps.ramp_down_length = 0 ∧
    cfgZeroRamps.min_speed_ratio ≤ 1 ∧ (∀ m ∈ pathW.moves, 0 ≤ m.length) ∧
    ((renderPath cfgZeroRamps pathW).length = pathW.moves.length + 3 ∧
    ∀ cmd ∈ renderPath cfgZeroRamps pathW, cmd.command = some "G1" →
      ∃ mv ∈ pathW.moves, getParam cmd.params 'F' = some mv.feedrate ∧
        cmd.comment = some (tag_comment mv.command.comment "STEADY")) :=
  ⟨rfl, rfl, le_refl 1, by simp [pathW, mvW],
    zero_ramps_all_steady cfgZeroRamps pathW rfl rfl (le_refl 1) (by simp [pathW, mvW])⟩

/-! Conservation of the emitted extrusion deltas. -/

theorem sumEmittedE_nil : sumEmittedE [] = 0 := rfl

theorem sumEmittedE_cons (c : GCodeCommand) (l : List GCodeCommand) :
    sumEmittedE (c :: l) =
      (if c.command = some "G1" then (getParam c.params 'E').getD 0 else 0) +
        sumEmittedE l := by
  unfold sumEmittedE
  rw [List.map_cons, List.sum_cons]

theorem sumEmittedE_append (l1 l2 : List GCodeCommand) :
    sumEmittedE (l1 ++ l2) = sumEmittedE l1 + sumEmittedE l2 := by
  unfold sumEmittedE
  rw [List.map_append, List.sum_append]

/-- The emitted `E` values of one rendered move sum exactly to the move's
`extrusion` delta: the `N` sub-segments carry `extrusion / N` each, and a
non-subdivided move keeps its source `E` parameter, assumed equal to the
delta. -/
theorem sumEmittedE_renderMove (cfg : ProcessorConfig) (total eu ed c : ℝ)
    (m : ExtrusionMove) (hE : getParam m.command.params 'E' = some m.extrusion) :
    sumEmittedE (renderMove cfg total eu ed c m) = m.extrusion := by
  have hFE : ('F' : Char) ≠ 'E' := by decide
  simp only [renderMove]
  split
  · have hn2 : 2 ≤ num_segments m.length cfg.segment_resolution := le_max_left _ _
    have hnne : ((num_segments m.length cfg.segment_resolution : ℕ) : ℝ) ≠ 0 :=
      Nat.cast_ne_zero.mpr (by omega)
    unfold sumEmittedE
    refine Eq.trans (List.sum_eq_card_nsmul _
      (m.extrusion / (num_segments m.length cfg.segment_resolution : ℝ)) ?_) ?_
    · intro x hx
      rcases List.mem_map.mp hx with ⟨cmd, hcmd, rfl⟩
      rcases List.mem_map.mp hcmd with ⟨i, _, rfl⟩
      simp [generate_segment_command, getParam_segment_E]
    · rw [List.length_map, List.length_map, List.length_range, nsmul_eq_mul, mul_comm,
        div_mul_cancel₀ _ hnne]
  · have h1 : getParam (setParam m.command.params 'F'
        (m.feedrate *
          max (calculate_speed_factor (c + m.length / 2) (total - (c + m.length / 2)) eu ed
            cfg.ramp_up_curve cfg.ramp_down_curve) cfg.min_speed_ratio)) 'E' =
        some m.extrusion := by
      rw [getParam_setParam_ne _ _ _ _ hFE, hE]
    rw [sumEmittedE_cons, sumEmittedE_nil]
    simp [h1]

/-- Lift of `sumEmittedE_renderMove` along the move loop. -/
theorem sumEmittedE_renderMoves (cfg : ProcessorConfig) (total eu ed : ℝ)
    (ms : List ExtrusionMove)
    (hE : ∀ m ∈ ms, getParam m.command.params 'E' = some m.extrusion) :
    ∀ c : ℝ, sumEmittedE (renderMoves cfg total eu ed c ms) =
      (ms.map (fun m => m.extrusion)).sum := by
  induction ms with
  | nil => intro c; rfl
  | cons m rest ih =>
    intro c
    simp only [renderMoves]
    rw [sumEmittedE_append,
      sumEmittedE_renderMove cfg total eu ed c m (hE m (List.mem_cons_self m rest)),
      ih (fun mv h => hE mv (List.mem_cons_of_mem m h)) (c + m.length),
      List.map_cons, List.sum_cons]

/-- C1 (amended): for a path in which every move's source `E` parameter
equals its net extrusion delta (which the analyzer guarantees in relative
extrusion mode), the sum of the `E` parameters carried by the emitted
executable commands equals the path's `total_extrusion` exactly, and in
particular within the claimed 1e-6 absolute tolerance. -/
theorem smoothing_extrusion_conserved (cfg : ProcessorConfig) (path : ExtrusionPath)
    (hE : ∀ m ∈ path.moves, getParam m.command.params 'E' = some m.extrusion) :
    sumEmittedE (renderPath cfg path) = path.total_extrusion ∧
    |sumEmittedE (renderPath cfg path) - path.total_extrusion| ≤ 1 / 1000000 := by
  have hmain : sumEmittedE (renderPath cfg path) = path.total_extrusion := by
    simp only [renderPath]
    rw [sumEmittedE_cons, sumEmittedE_cons, sumEmittedE_append,
      sumEmittedE_renderMoves cfg path.total_length _ _ path.moves hE 0,
      sumEmittedE_cons, sumEmittedE_nil]
    simp [ExtrusionPath.total_extrusion]
  refine ⟨hmain, ?_⟩
  rw [hmain, sub_self, abs_zero]
  norm_num

/-- Witness for C1 on a concrete one-move path whose `E` parameter equals
its extrusion delta. -/
theorem smoothing_extrusion_conserved_witness :
    (∀ m ∈ pathW.moves, getParam m.command.params 'E' = some m.extrusion) ∧
    (sumEmittedE (renderPath procCfgDefault pathW) = pathW.total_extrusion ∧
      |sumEmittedE (renderPath procCfgDefault pathW) - pathW.total_extrusion| ≤ 1 / 1000000) :=
  ⟨fun m hm => by rw [List.mem_singleton.mp hm]; rfl,
    smoothing_extrusion_conserved procCfgDefault pathW
      (fun m hm => by rw [List.mem_singleton.mp hm]; rfl)⟩

/-- C1 counterexample: in absolute extrusion mode a non-subdivided move is
emitted with its absolute `E` position untouched, so the claim's sum of
emitted `E` parameters exceeds the path's `total_extrusion` by the prior
absolute position (here by 1 mm, far outside the 1e-6 tolerance). -/
theorem smoothing_sum_eparams_absolute_counterexample :
    ¬ (|sumEmittedE (renderPath procCfgDefault pathAbs) - pathAbs.total_extrusion| ≤
        1 / 1000000) := by
  have hFE : ('F' : Char) ≠ 'E' := by decide
  have hlen0 : mvAbs.length = distance_xy ⟨0, 0, 0, 1⟩ ⟨0.3, 0, 0, 1.3⟩ := rfl
  have hlen : mvAbs.length = 0.3 := by
    rw [hlen0, distance_xy]
    rw [show ((0.3 : ℝ) - 0) * ((0.3 : ℝ) - 0) + (0 - 0) * (0 - 0) = 0.3 ^ 2 by norm_num]
    rw [Real.sqrt_sq (by norm_num : (0 : ℝ) ≤ 0.3)]
  have hseg : decide (mvAbs.length > procCfgDefault.segment_resolution) = false := by
    apply decide_eq_false
    rw [hlen]
    show ¬ ((0.3 : ℝ) > (0.5 : ℝ))
    norm_num
  have hEparam : getParam (mvAbs.command.params) 'E' = some 1.3 := rfl
  have hext : mvAbs.extrusion = (1.3 : ℝ) - 1 := rfl
  have hsum : sumEmittedE (renderPath procCfgDefault pathAbs) = 1.3 := by
    simp only [renderPath, pathAbs, renderMoves, sumEmittedE_cons, sumEmittedE_append,
      sumEmittedE_nil]
    simp only [renderMove, hseg, Bool.and_false, Bool.false_eq_true, if_false]
    rw [sumEmittedE_cons, sumEmittedE_nil]
    simp [getParam_setParam_ne _ _ _ _ hFE, hEparam]
  have htot : pathAbs.total_extrusion = (0.3 : ℝ) := by
    simp only [pathAbs, ExtrusionPath.total_extrusion, List.map_cons, List.map_nil,
      List.sum_cons, List.sum_nil, hext]
    norm_num
  rw [hsum, htot]
  rw [show (1.3 : ℝ) - 0.3 = 1 by norm_num, abs_one]
  norm_num

/-! Sub-segment geometry. -/

theorem sqrt_dist_scale (ax ay t : ℝ) (ht : 0 ≤ t) :
    Real.sqrt ((ax * t) * (ax * t) + (ay * t) * (ay * t)) =
      Real.sqrt (ax * ax + ay * ay) * t := by
  rw [show (ax * t) * (ax * t) + (ay * t) * (ay * t) = (ax * ax + ay * ay) * t ^ 2 by ring]
  rw [Real.sqrt_mul (by nlinarith [mul_self_nonneg ax, mul_self_nonneg ay]), Real.sqrt_sq ht]

/-- C4 (amended): a move overlapping a ramp zone whose planar length
exceeds `segment_resolution` is split into exactly
`max 2 ⌊length / resolution⌋` sub-segments — Python's `int` truncation,
not rounding.  The emitted sub-commands interpolate the endpoints at the
equal fractions `(i+1)/N`, and when the move's stored length is the planar
distance of its endpoints, each sub-segment has planar length exactly
`length / N`. -/
theorem segment_split_floor (cfg : ProcessorConfig) (total eu ed c : ℝ)
    (m : ExtrusionMove)
    (hzone : c < eu ∨ c + m.length > total - ed)
    (hres : m.length > cfg.segment_resolution)
    (hdist : m.length = distance_xy m.start_point m.end_point) :
    (renderMove cfg total eu ed c m).length =
      max 2 (⌊m.length / cfg.segment_resolution⌋).toNat ∧
    ((renderMove cfg total eu ed c m).map
        (fun cmd => (getParam cmd.params 'X', getParam cmd.params 'Y'))) =
      (List.range (num_segments m.length cfg.segment_resolution)).map
        (fun i =>
          (some ((subPoint m (num_segments m.length cfg.segment_resolution) (i + 1)).x),
           some ((subPoint m (num_segments m.length cfg.segment_resolution) (i + 1)).y))) ∧
    (∀ i : ℕ,
      distance_xy (subPoint m (num_segments m.length cfg.segment_resolution) i)
          (subPoint m (num_segments m.length cfg.segment_resolution) (i + 1)) =
        m.length / (num_segments m.length cfg.segment_resolution : ℝ)) := by
  have hcond : ((decide (c < eu) || decide (c + m.length > total - ed)) &&
      decide (m.length > cfg.segment_resolution)) = true := by
    rw [Bool.and_eq_true, Bool.or_eq_true]
    simp only [decide_eq_true_eq]
    exact ⟨hzone, hres⟩
  have hn2 : 2 ≤ num_segments m.length cfg.segment_resolution := le_max_left _ _
  have hnpos : (0 : ℝ) < (num_segments m.length cfg.segment_resolution : ℝ) := by
    exact_mod_cast Nat.lt_of_lt_of_le (by norm_num) hn2
  refine ⟨?_, ?_, ?_⟩
  · simp only [renderMove, hcond, if_true, List.length_map, List.length_range]
    rfl
  · simp only [renderMove, hcond, if_true, List.map_map]
    apply List.map_congr_left
    intro i _
    simp only [Function.comp_apply, generate_segment_command, List.cons_append,
      List.nil_append, getParam_segment_X, getParam_segment_Y, subPoint,
      Prod.mk.injEq, Option.some.injEq]
    constructor
    · push_cast
      ring
    · push_cast
      ring
  · intro i
    simp only [distance_xy, subPoint]
    have key : ∀ s a : ℝ,
        s + a * (((i : ℕ) + 1 : ℕ) / (num_segments m.length cfg.segment_resolution : ℝ)) -
          (s + a * ((i : ℕ) / (num_segments m.length cfg.segment_resolution : ℝ))) =
        a * (1 / (num_segments m.length cfg.segment_resolution : ℝ)) := by
      intro s a
      push_cast
      field_simp
      ring
    rw [key, key, sqrt_dist_scale _ _ _ (by positivity)]
    rw [hdist, distance_xy]
    rw [mul_one_div]

/-- C4 counterexample: a 1.35 mm move against resolution 0.5 mm gives
`1.35 / 0.5 = 2.7`; the engine truncates and emits 2 sub-segments, while
the claimed `max(2, round(2.7))` is 3. -/
theorem segment_count_round_counterexample :
    (renderMove procCfgDefault 1.35 1 0 0 mvLong).length = 2 ∧
    max 2 (round ((1.35 : ℝ) / 0.5)).toNat = 3 ∧ (2 : ℕ) ≠ 3 := by
  have hres : mvLong.length > procCfgDefault.segment_resolution := by
    show (0.5 : ℝ) < 1.35
    norm_num
  have hcond : ((decide ((0 : ℝ) < 1) || decide ((0 : ℝ) + mvLong.length > 1.35 - 0)) &&
      decide (mvLong.length > procCfgDefault.segment_resolution)) = true := by
    rw [Bool.and_eq_true, Bool.or_eq_true]
    simp only [decide_eq_true_eq]
    exact ⟨Or.inl zero_lt_one, hres⟩
  have hfloor : ⌊(1.35 : ℝ) / 0.5⌋ = 2 := by
    rw [show (1.35 : ℝ) / 0.5 = 2.7 by norm_num]
    exact Int.floor_eq_iff.mpr ⟨by norm_num, by norm_num⟩
  refine ⟨?_, ?_, by decide⟩
  · simp only [renderMove, hcond, if_true, List.length_map, List.length_range]
    show max 2 (⌊(1.35 : ℝ) / (0.5 : ℝ)⌋).toNat = 2
    rw [hfloor]
    rfl
  · rw [round_eq, show (1.35 : ℝ) / 0.5 + 1 / 2 = 3.2 by norm_num]
    rw [show ⌊(3.2 : ℝ)⌋ = 3 from Int.floor_eq_iff.mpr ⟨by norm_num, by norm_num⟩]
    rfl

/-- Witness for C4 on a concrete in-zone move of length 1 against
resolution 1/2. -/
theorem segment_split_floor_witness :
    ((0 : ℝ) < 1 ∨ (0 : ℝ) + mvW.length > 1 - 0) ∧
    mvW.length > cfgHalfRes.segment_resolution ∧
    mvW.length = distance_xy mvW.start_point mvW.end_point ∧
    ((renderMove cfgHalfRes 1 1 0 0 mvW).length =
      max 2 (⌊mvW.length / cfgHalfRes.segment_resolution⌋).toNat ∧
    ((renderMove cfgHalfRes 1 1 0 0 mvW).map
        (fun cmd => (getParam cmd.params 'X', getParam cmd.params 'Y'))) =
      (List.range (num_segments mvW.length cfgHalfRes.segment_resolution)).map
        (fun i =>
          (some ((subPoint mvW (num_segments mvW.length cfgHalfRes.segment_resolution) (i + 1)).x),
           some ((subPoint mvW (num_segments mvW.length cfgHalfRes.segment_resolution) (i + 1)).y))) ∧
    (∀ i : ℕ,
      distance_xy (subPoint mvW (num_segments mvW.length cfgHalfRes.segment_resolution) i)
          (subPoint mvW (num_segments mvW.length cfgHalfRes.segment_resolution) (i + 1)) =
        mvW.length / (num_segments mvW.length cfgHalfRes.segment_resolution : ℝ))) :=
  ⟨Or.inl zero_lt_one, one_half_lt_one, by simp [mvW, distance_xy],
    segment_split_floor cfgHalfRes 1 1 0 0 mvW (Or.inl zero_lt_one) one_half_lt_one
      (by simp [mvW, distance_xy])⟩

/-! Path-closing behaviour of the detector on travel moves. -/

/-- C5 (amended): in a detection step on a move-opcode command that is not
an extruding move and carries no feature or wipe annotation, the open
non-empty path is closed iff the command supplies at least one of the
axis parameters X, Y or Z — the code closes on a Z-only move as well,
not only on planar-axis moves. -/
theorem travel_close_iff_axis_param (a : AnalyzerState) (cmd : GCodeCommand)
    (p : ExtrusionPath)
    (hdf : detect_feature_type cmd = none) (hw : has_wipe_marker cmd = false)
    (hmv : cmd.command = some "G0" ∨ cmd.command = some "G1")
    (hne : is_extrusion_move a.st cmd = false)
    (hcur : a.current = some p) (hmoves : p.moves ≠ []) :
    ((analyzeStep a cmd).current = none ↔
      (hasParam cmd.params 'X' || hasParam cmd.params 'Y' ||
        hasParam cmd.params 'Z') = true) ∧
    (analyzeStep a cmd).paths.length =
      a.paths.length +
        (if (hasParam cmd.params 'X' || hasParam cmd.params 'Y' ||
            hasParam cmd.params 'Z') = true then 1 else 0) := by
  have hM : ¬ (cmd.command = some "M82" ∨ cmd.command = some "M83" ∨
      cmd.command = some "G92") := by
    rcases hmv with h | h <;> rw [h] <;> decide
  have hie : p.moves.isEmpty = false := by
    cases hpm : p.moves with
    | nil => exact absurd hpm hmoves
    | cons x xs => rfl
  have hclose : close_current_path a =
      { a with
        paths := a.paths ++ [{ p with end_line := (p.moves.getLastD default).line_number }],
        current := none } := by
    unfold close_current_path
    rw [hcur]
    simp only [hie, Bool.false_eq_true, if_false]
  simp only [analyzeStep, hdf, hw, Bool.false_eq_true, if_false, if_neg hM, hne,
    if_pos hmv]
  by_cases hax : (hasParam cmd.params 'X' || hasParam cmd.params 'Y' ||
      hasParam cmd.params 'Z') = true
  · rw [if_pos hax, hclose]
    refine ⟨⟨fun _ => hax, fun _ => rfl⟩, ?_⟩
    simp [hax]
  · rw [if_neg hax]
    refine ⟨⟨fun h => ?_, fun h => absurd h hax⟩, ?_⟩
    · rw [hcur] at h
      exact absurd h (by simp)
    · simp [hax]

/-- C5 counterexample: a `G1 Z5` command carries no planar-axis (X or Y)
parameter, yet the detector closes the open path on it: the closed path is
emitted and the accumulator is cleared. -/
theorem travel_close_zonly_counterexample :
    hasParam cmdZOnly.params 'X' = false ∧ hasParam cmdZOnly.params 'Y' = false ∧
    (analyzeStep aStateOpen cmdZOnly).current.isNone = true ∧
    (analyzeStep aStateOpen cmdZOnly).paths.length = 1 :=
  ⟨rfl, rfl, rfl, rfl⟩

/-- Witness for C5 on the Z-only move against an open one-move path. -/
theorem travel_close_iff_axis_param_witness :
    detect_feature_type cmdZOnly = none ∧ has_wipe_marker cmdZOnly = false ∧
    (cmdZOnly.command = some "G0" ∨ cmdZOnly.command = some "G1") ∧
    is_extrusion_move aStateOpen.st cmdZOnly = false ∧
    aStateOpen.current = some pathW ∧ pathW.moves ≠ [] ∧
    (((analyzeStep aStateOpen cmdZOnly).current = none ↔
      (hasParam cmdZOnly.params 'X' || hasParam cmdZOnly.params 'Y' ||
        hasParam cmdZOnly.params 'Z') = true) ∧
    (analyzeStep aStateOpen cmdZOnly).paths.length =
      aStateOpen.paths.length +
        (if (hasParam cmdZOnly.params 'X' || hasParam cmdZOnly.params 'Y' ||
            hasParam cmdZOnly.params 'Z') = true then 1 else 0)) :=
  ⟨rfl, rfl, Or.inr rfl, rfl, rfl, by simp [pathW],
    travel_close_iff_axis_param aStateOpen cmdZOnly pathW rfl rfl (Or.inr rfl) rfl rfl
      (by simp [pathW])⟩

/-! Verbatim passthrough of commands outside qualifying paths. -/

theorem processAux_mem_of_lookup_none (cfg : ProcessorConfig)
    (ltp : List (ℕ × ExtrusionPath)) (cmd : GCodeCommand)
    (h : lookupLine ltp cmd.line_number = none) :
    ∀ (l : List GCodeCommand) (done : List ℕ), cmd ∈ l →
      cmd ∈ processAux cfg ltp done l := by
  intro l
  induction l with
  | nil =>
    intro done hmem
    exact absurd hmem (List.not_mem_nil cmd)
  | cons c rest ih =>
    intro done hmem
    rcases List.mem_cons.mp hmem with rfl | hmem2
    · simp only [processAux, h]
      exact List.mem_cons_self _ _
    · cases hc : lookupLine ltp c.line_number with
      | none =>
        simp only [processAux, hc]
        exact List.mem_cons_of_mem _ (ih done hmem2)
      | some q =>
        simp only [processAux, hc]
        split
        · exact ih done hmem2
        · exact List.mem_append_right _ (ih _ hmem2)

/-- C9: a command whose line number belongs to no qualifying path is
copied through unchanged by the output pass of `process_file`, and (being
unmodified) renders byte-identically to its stored input line. -/
theorem non_path_commands_copied_verbatim (cfg : ProcessorConfig)
    (commands : List GCodeCommand) (cmd : GCodeCommand)
    (hmem : cmd ∈ commands)
    (hnone : (lookupLine (build_line_to_path cfg (analyze commands))
      cmd.line_number).isNone = true)
    (hmod : cmd.modified = false) :
    cmd ∈ process_commands cfg commands ∧ to_gcode cmd = cmd.raw_line := by
  constructor
  · exact processAux_mem_of_lookup_none cfg _ cmd (Option.isNone_iff_eq_none.mp hnone)
      commands [] hmem
  · rw [to_gcode, hmod]
    simp

/-- Witness for C9 on a stream holding a single heater command. -/
theorem non_path_commands_copied_verbatim_witness :
    cmdM104 ∈ [cmdM104] ∧
    (lookupLine (build_line_to_path procCfgDefault (analyze [cmdM104]))
      cmdM104.line_number).isNone = true ∧
    cmdM104.modified = false ∧
    (cmdM104 ∈ process_commands procCfgDefault [cmdM104] ∧
      to_gcode cmdM104 = cmdM104.raw_line) :=
  ⟨List.mem_singleton.mpr rfl, rfl, rfl,
    non_path_commands_copied_verbatim procCfgDefault [cmdM104] cmdM104
      (List.mem_singleton.mpr rfl) rfl rfl⟩

/-! Per-segment extrusion deltas regardless of extrusion mode. -/

/-- C10: the analyzer stores in `extrusion` the net delta — `E - e` under
absolute mode, `E` under relative mode — and the subdivision branch emits
every sub-command with `E = extrusion / N`, a per-segment delta computed
from that mode-resolved field; the emitted `E` values are never absolute
extrusion positions, whatever mode the path was recorded in. -/
theorem subdivided_e_is_delta_per_segment :
    (∀ (st : MachineState) (cmd : GCodeCommand),
      (st.relative_extrusion = false →
        (create_extrusion_move st cmd).extrusion =
          (getParam cmd.params 'E').getD st.e - st.e) ∧
      (st.relative_extrusion = true →
        (create_extrusion_move st cmd).extrusion = (getParam cmd.params 'E').getD st.e)) ∧
    (∀ (cfg : ProcessorConfig) (total eu ed c : ℝ) (m : ExtrusionMove),
      (c < eu ∨ c + m.length > total - ed) → m.length > cfg.segment_resolution →
      ∀ cmd ∈ renderMove cfg total eu ed c m,
        getParam cmd.params 'E' =
          some (m.extrusion / (num_segments m.length cfg.segment_resolution : ℝ))) := by
  constructor
  · intro st cmd
    constructor
    · intro h
      simp [create_extrusion_move, h]
    · intro h
      simp [create_extrusion_move, h]
  · intro cfg total eu ed c m hzone hres cmd hc
    have hcond : ((decide (c < eu) || decide (c + m.length > total - ed)) &&
        decide (m.length > cfg.segment_resolution)) = true := by
      rw [Bool.and_eq_true, Bool.or_eq_true]
      simp only [decide_eq_true_eq]
      exact ⟨hzone, hres⟩
    simp only [renderMove, hcond, if_true] at hc
    rcases List.mem_map.mp hc with ⟨i, _, rfl⟩
    exact getParam_segment_E _ _ _ _ _

/-- Witness for C10: the absolute-mode fixture resolves to a net delta,
and the subdivided rendering of a concrete in-zone move carries per-segment
`E` values. -/
theorem subdivided_e_is_delta_per_segment_witness :
    stAbs.relative_extrusion = false ∧
    (create_extrusion_move stAbs cmdAbsE).extrusion =
      (getParam cmdAbsE.params 'E').getD stAbs.e - stAbs.e ∧
    ((0 : ℝ) < 1 ∨ (0 : ℝ) + mvW.length > 1 - 0) ∧
    mvW.length > cfgHalfRes.segment_resolution ∧
    (∀ cmd ∈ renderMove cfgHalfRes 1 1 0 0 mvW,
      getParam cmd.params 'E' =
        some (mvW.extrusion / (num_segments mvW.length cfgHalfRes.segment_resolution : ℝ))) :=
  ⟨rfl, (subdivided_e_is_delta_per_segment.1 stAbs cmdAbsE).1 rfl,
    Or.inl zero_lt_one, one_half_lt_one,
    subdivided_e_is_delta_per_segment.2 cfgHalfRes 1 1 0 0 mvW (Or.inl zero_lt_one)
      one_half_lt_one⟩

end FGF
